import Mathlib

/-!
Shallow embedding of the CRISTIN annual-report pipeline
(`report_generator.py`) and proofs about its core functions.

Raw records arriving from the registry are JSON-like Python values.  We
embed them as `PyVal`; a raw publication record itself is a Python
`dict` (the functions under study are annotated `item: dict`), embedded
as an association list `Item`.  Python operations that can raise on
ill-typed nested fields (`.get` on a non-dict, iteration over a
non-iterable, `unicodedata.normalize` on a non-string) are embedded in
the `Except String` monad, the error string naming the Python exception.

Modelling notes kept as close to CPython semantics as the claims
exercise:
  * `pyEq` is Python `==` restricted to the value types occurring in
    records; `True == 1` holds, cross-type comparisons against strings
    are `False`.  Python `dict` equality is order-insensitive; the
    embedding compares field lists in order, a difference no comparison
    in this code base can observe (all comparisons are against string
    or integer literals).
  * `pyStr` is Python `str()`; the `repr` of nested containers inside a
    list/dict rendering is simplified (no escaping inside quotes), a
    difference no theorem below depends on.
  * Python `str.strip()` strips Unicode whitespace; `pyStrip` strips
    the ASCII whitespace characters, which is exact for the data the
    claims exercise.
  * `normalize_text` performs NFKD decomposition before dropping
    non-ASCII characters; on ASCII input NFKD is the identity, and the
    embedding models exactly that fragment.
-/

inductive PyVal where
  | none
  | bool (b : Bool)
  | int (n : Int)
  | str (s : String)
  | list (xs : List PyVal)
  | dict (fields : List (String × PyVal))

abbrev Item := List (String × PyVal)

/-- Python truthiness of a value. -/
def truthy : PyVal → Bool
  | .none => false
  | .bool b => b
  | .int n => n != 0
  | .str s => s != ""
  | .list xs => !xs.isEmpty
  | .dict fields => !fields.isEmpty

mutual
/-- Python `==` on the embedded value types (`True == 1` holds). -/
def pyEq : PyVal → PyVal → Bool
  | .none, .none => true
  | .bool a, .bool b => a == b
  | .int a, .int b => a == b
  | .bool a, .int b => (if a then (1 : Int) else 0) == b
  | .int a, .bool b => a == (if b then (1 : Int) else 0)
  | .str a, .str b => a == b
  | .list as, .list bs => pyEqList as bs
  | .dict as, .dict bs => pyEqDict as bs
  | _, _ => false

def pyEqList : List PyVal → List PyVal → Bool
  | [], [] => true
  | a :: as, b :: bs => pyEq a b && pyEqList as bs
  | _, _ => false

def pyEqDict : List (String × PyVal) → List (String × PyVal) → Bool
  | [], [] => true
  | a :: as, b :: bs => a.1 == b.1 && pyEq a.2 b.2 && pyEqDict as bs
  | _, _ => false
end

mutual
/-- Python `str()` (`asRepr = false`) or `repr()` (`asRepr = true`) of a
value; the only difference is the quoting of strings. -/
def pyStrAux : Bool → PyVal → String
  | _, .none => "None"
  | _, .bool b => if b then "True" else "False"
  | _, .int n => toString n
  | asRepr, .str s => if asRepr then "'" ++ s ++ "'" else s
  | _, .list xs => "[" ++ pyReprJoin xs ++ "]"
  | _, .dict fields => "\x7b" ++ pyReprFields fields ++ "\x7d"

def pyReprJoin : List PyVal → String
  | [] => ""
  | [x] => pyStrAux true x
  | x :: y :: rest => pyStrAux true x ++ ", " ++ pyReprJoin (y :: rest)

def pyReprFields : List (String × PyVal) → String
  | [] => ""
  | [(k, v)] => "'" ++ k ++ "': " ++ pyStrAux true v
  | (k, v) :: q :: rest =>
      "'" ++ k ++ "': " ++ pyStrAux true v ++ ", " ++ pyReprFields (q :: rest)
end

/-- Python `str()` of a value. -/
def pyStr : PyVal → String := pyStrAux false

/-- `d.get(k, dflt)` on a Python dict given as a field list. -/
def pyGet (d : Item) (k : String) (dflt : PyVal) : PyVal :=
  match d.find? (fun p => p.1 == k) with
  | some p => p.2
  | none => dflt

/-- `v.get(k, dflt)` on an arbitrary value: `AttributeError` unless `v` is a dict. -/
def vGet (v : PyVal) (k : String) (dflt : PyVal) : Except String PyVal :=
  match v with
  | .dict fields => .ok (pyGet fields k dflt)
  | _ => .error "AttributeError: get"

/-- Python `for x in v`: lists yield elements, strings their characters,
dicts their keys; other values raise `TypeError`. -/
def pyIter : PyVal → Except String (List PyVal)
  | .list xs => .ok xs
  | .str s => .ok (s.toList.map (fun c => .str c.toString))
  | .dict fields => .ok (fields.map (fun p => .str p.1))
  | _ => .error "TypeError: not iterable"

/-- Python `a or b`. -/
def pyOr (a b : PyVal) : PyVal :=
  if truthy a then a else b

/-- ASCII whitespace, the characters Python `str.strip()` removes on this data. -/
def isPyWS (c : Char) : Bool :=
  c == ' ' || c == '\t' || c == '\n' || c == '\r'

/-- Python `str.strip()` on a character list. -/
def pyStrip (l : List Char) : List Char :=
  ((l.dropWhile isPyWS).reverse.dropWhile isPyWS).reverse

/-- Python `str.strip()`. -/
def pyStripS (s : String) : String :=
  (pyStrip s.toList).asString

/-- Does the character list start with the given pattern? -/
def startsWithChars : List Char → List Char → Bool
  | _, [] => true
  | [], _ :: _ => false
  | a :: as, b :: bs => a == b && startsWithChars as bs

/-- Substring search on character lists. -/
def hasSubChars : List Char → List Char → Bool
  | [], needle => needle.isEmpty
  | h :: t, needle => startsWithChars (h :: t) needle || hasSubChars t needle

/-- Python `needle in hay` on strings. -/
def pyInStr (needle hay : String) : Bool :=
  hasSubChars hay.toList needle.toList

/-- Python `sep.join(xs)`. -/
def pyJoin (sep : String) : List String → String
  | [] => ""
  | [x] => x
  | x :: y :: rest => x ++ sep ++ pyJoin sep (y :: rest)

/-- Association-list lookup (Python dict indexing, keys unique). -/
def alistGet {α : Type} : List (String × α) → String → Option α
  | [], _ => Option.none
  | p :: rest, k => if p.1 = k then some p.2 else alistGet rest k

/-- `grouped.setdefault(k, []).append(v)` on a dict of lists: extend the
existing key's list in place, or add the key at the end (Python dicts
have unique keys and preserve insertion order). -/
def dictAppend : List (String × List String) → String → String → List (String × List String)
  | [], k, v => [(k, [v])]
  | p :: rest, k, v =>
      if p.1 = k then (p.1, p.2 ++ [v]) :: rest else p :: dictAppend rest k v

/-! ## Constants of `report_generator.py` -/

def PER_PAGE_DEFAULT : Nat := 100
def MAX_PAGES_DEFAULT : Nat := 25

def CATEGORY_KEYS : List String := [
  "publisert_monografi_niva2",
  "publisert_monografi_niva1",
  "publisert_artikkel_niva2",
  "publisert_artikkel_niva1",
  "publisert_antologi_niva2",
  "publisert_antologi_niva1",
  "publisert_book_review",
  "publisert_annet"
]

def MANUAL_FIELD_KEYS : List String := [
  "forskningsarbeid_internasjonal_deltagelse",
  "forskningsarbeid_internasjonal_ledelse",
  "forskningsarbeid_nasjonal_deltagelse",
  "forskningsarbeid_nasjonal_ledelse",
  "forskningsarbeid_innvilget_soknad",
  "forskningsarbeid_utenlandsopphold",
  "forskningsarbeid_innovasjon",
  "forskningsarbeid_nasjonale_nettverk",
  "forskningsarbeid_internasjonale_nettverk",
  "formidling_faglig",
  "formidling_politisk",
  "formidling_kronikker",
  "formidling_popularvitenskapelig",
  "formidling_media",
  "veiledning_phd",
  "opponent_phd",
  "referee_vitenskapelige_artikler",
  "veiledning_masteroppgave",
  "sensur_masteroppgave",
  "professor_vurderinger"
]

def NON_PUBLICATION_CATEGORY_CODES : List String := [
  "ACADEMICLECTURE",
  "LECTURE",
  "POSTER",
  "OTHERPRES",
  "MEDIAINTERVIEW",
  "PROGRAMPARTICIP",
  "ARTICLEFEATURE",
  "READEROPINION"
]

def FORMIDLING_CATEGORY_MAP : List (String × String) := [
  ("ACADEMICLECTURE", "formidling_faglig"),
  ("LECTURE", "formidling_faglig"),
  ("POSTER", "formidling_faglig"),
  ("OTHERPRES", "formidling_faglig"),
  ("MEDIAINTERVIEW", "formidling_media"),
  ("PROGRAMPARTICIP", "formidling_media"),
  ("ARTICLEFEATURE", "formidling_kronikker"),
  ("READEROPINION", "formidling_kronikker")
]

/-- Structured representation of a publication reference. -/
structure PublicationEntry where
  reference : String
  category_key : String
  year : String
deriving Repr, DecidableEq

/-! ## Field extractors -/

/-- `normalize_text`: NFKD-decompose, drop non-ASCII, lowercase, strip.
NFKD is the identity on ASCII text, the fragment modelled here.  The
function receives `category_label or ""`, which may be a non-string
value, in which case `unicodedata.normalize` raises `TypeError`. -/
def normalize_text : PyVal → Except String String
  | .str s =>
      .ok (pyStripS ((s.toList.filter (fun c => c.val < 128)).map Char.toLower).asString)
  | _ => .error "TypeError: normalize_text expects str"

/-- `extract_category_code_name`: category code and first truthy display name. -/
def extract_category_code_name (item : Item) : PyVal × PyVal :=
  match pyGet item "category" .none with
  | .dict c =>
      let code := pyGet c "code" .none
      let name :=
        match pyGet c "name" .none with
        | .dict f =>
            match f.find? (fun p => truthy p.2) with
            | some p => p.2
            | none => .none
        | .str s => .str s
        | _ => .none
      (code, name)
  | _ => (.none, .none)

/-- `get_title`: first truthy value of the multilingual title mapping,
the stripped title when it is a non-blank string, else the fallback.
The returned value is the raw dict value, not coerced to `str`. -/
def get_title (item : Item) : PyVal :=
  match pyGet item "title" (.dict []) with
  | .dict fields =>
      match fields.find? (fun p => truthy p.2) with
      | some p => p.2
      | none => .str "No title available"
  | .str s => if pyStripS s ≠ "" then .str (pyStripS s) else .str "No title available"
  | _ => .str "No title available"

/-- Loop body of `extract_doi` over the `links` entries. -/
def extract_doi_go : List PyVal → Except String PyVal
  | [] => .ok .none
  | l :: rest => do
      let ut ← vGet l "url_type" (.str "")
      if (pyStr ut).toUpper == "DOI" then do
        let url ← vGet l "url" .none
        if truthy url then .ok url else extract_doi_go rest
      else extract_doi_go rest

/-- `extract_doi`: first link whose `url_type` upper-cases to `"DOI"` and
whose `url` is truthy; `None` otherwise. -/
def extract_doi (item : Item) : Except String PyVal := do
  let links ← pyIter (pyGet item "links" (.list []))
  extract_doi_go links

/-- `extract_year`: `year_published or year or ""`, coerced to `str`. -/
def extract_year (item : Item) : String :=
  let y := pyOr (pyGet item "year_published" .none) (pyOr (pyGet item "year" .none) (.str ""))
  if truthy y then pyStr y else ""

/-- Loop body of `format_authors` over `contributors.preview`. -/
def format_authors_go : List PyVal → Except String (List String)
  | [] => .ok []
  | a :: rest => do
      let sv ← vGet a "surname" (.str "")
      let fv ← vGet a "first_name" (.str "")
      let surname := pyStripS (pyStr sv)
      let first := pyStripS (pyStr fv)
      let tail ← format_authors_go rest
      if surname ≠ "" || first ≠ "" then
        .ok (pyJoin ", " ([surname, first].filter (· ≠ "")) :: tail)
      else
        .ok tail

/-- `format_authors`: "Surname, First" joined by "; ", `"Unknown author"`
when no contributor has a name part. -/
def format_authors (item : Item) : Except String String := do
  let preview ← vGet (pyGet item "contributors" (.dict [])) "preview" (.list [])
  let authors ← pyIter preview
  let names ← format_authors_go authors
  let joined := pyJoin "; " names
  .ok (if joined = "" then "Unknown author" else joined)

/-- The publication-info chain of `format_reference`:
`journal.name or event.name or channel.title or fallback`, with
Python's left-to-right short-circuit evaluation. -/
def pub_info (item : Item) : Except String PyVal := do
  let jname ← vGet (pyGet item "journal" (.dict [])) "name" .none
  if truthy jname then .ok jname
  else do
    let ename ← vGet (pyGet item "event" (.dict [])) "name" .none
    if truthy ename then .ok ename
    else do
      let ctitle ← vGet (pyGet item "channel" (.dict [])) "title" .none
      .ok (if truthy ctitle then ctitle else .str "No publication information available")

/-- `item.get("volume") or "N/A"`, rendered by the f-string. -/
def volume_str (item : Item) : String :=
  pyStr (pyOr (pyGet item "volume" .none) (.str "N/A"))

/-- `item.get("pages", {}) if isinstance(item.get("pages"), dict) else {}`. -/
def pages_obj (item : Item) : Item :=
  match pyGet item "pages" .none with
  | .dict f => f
  | _ => []

/-- `f"{pages_obj.get('from', 'N/A')}-{pages_obj.get('to', 'N/A')}"`. -/
def pages_str (item : Item) : String :=
  pyStr (pyGet (pages_obj item) "from" (.str "N/A")) ++ "-"
    ++ pyStr (pyGet (pages_obj item) "to" (.str "N/A"))

/-- `format_reference`: APA-like reference string, in the source's
evaluation order. -/
def format_reference (item : Item) : Except String String := do
  let authors ← format_authors item
  let year := if extract_year item = "" then "n.d." else extract_year item
  let title := get_title item
  let publication_info ← pub_info item
  let doi ← extract_doi item
  let reference :=
    authors ++ " (" ++ year ++ "). " ++ pyStr title ++ ". " ++ pyStr publication_info
      ++ ", Volume " ++ volume_str item ++ ", pp. " ++ pages_str item ++ "."
  .ok (if truthy doi then reference ++ " " ++ pyStr doi ++ "." else reference)

/-- The scan of `extract_level` over the already-built candidate list:
first candidate with `value in (1, 2, "1", "2")` (Python `==`, so the
boolean `True` also matches `1`), rendered by `str`. -/
def level_scan : List PyVal → Option String
  | [] => Option.none
  | v :: rest =>
      if [PyVal.int 1, PyVal.int 2, PyVal.str "1", PyVal.str "2"].any (fun t => pyEq v t) then
        some (pyStr v)
      else level_scan rest

/-- `extract_level`: best-effort publication level.  Python builds the
whole candidate list before scanning, so every nested access is
evaluated (and can raise) regardless of earlier matches. -/
def extract_level (item : Item) : Except String (Option String) := do
  let c1 := pyGet item "level" .none
  let c2 := pyGet item "publication_level" .none
  let c3 := pyGet item "scientific_level" .none
  let c4 ← vGet (pyGet item "publication_context" (.dict [])) "level" .none
  let c5 ← vGet (pyGet item "publicationContext" (.dict [])) "level" .none
  let c6 ← vGet (pyGet item "publication_channel" (.dict [])) "level" .none
  let c7 ← vGet (pyGet item "publicationChannel" (.dict [])) "level" .none
  let c8 ← vGet (pyGet item "channel" (.dict [])) "level" .none
  let c9 ← vGet (pyGet item "journal" (.dict [])) "level" .none
  let c10 ← vGet (pyGet item "channel" (.dict [])) "nvi_level" .none
  let c11 ← vGet (pyGet item "journal" (.dict [])) "nvi_level" .none
  .ok (level_scan [c1, c2, c3, c4, c5, c6, c7, c8, c9, c10, c11])

/-- `extract_level(item) or "1"` (a returned level string is never empty,
but the embedding keeps Python's truthiness test). -/
def level_or_1 : Option String → String
  | Option.none => "1"
  | some s => if s = "" then "1" else s

/-- `classify_publication`: map the category to a template placeholder
key (`none` = excluded non-publication). -/
def classify_publication (item : Item) : Except String (Option String) :=
  let code := (extract_category_code_name item).1
  let label := (extract_category_code_name item).2
  if NON_PUBLICATION_CATEGORY_CODES.any (fun s => pyEq code (.str s)) then
    .ok Option.none
  else do
    let normalized ← normalize_text (pyOr label (.str ""))
    if pyEq code (.str "ARTICLE") then do
      let lv ← extract_level item
      .ok (some ("publisert_artikkel_niva" ++ level_or_1 lv))
    else if pyEq code (.str "TEXTBOOK") then do
      let lv ← extract_level item
      .ok (some ("publisert_monografi_niva" ++ level_or_1 lv))
    else if pyInStr "book review" normalized || pyInStr "bokanmeldelse" normalized then
      .ok (some "publisert_book_review")
    else if pyInStr "monograph" normalized || pyInStr "monografi" normalized
        || pyInStr "book" normalized then do
      let lv ← extract_level item
      .ok (some ("publisert_monografi_niva" ++ level_or_1 lv))
    else if pyInStr "anthology" normalized || pyInStr "antologi" normalized
        || pyInStr "edited" normalized then do
      let lv ← extract_level item
      .ok (some ("publisert_antologi_niva" ++ level_or_1 lv))
    else if pyInStr "article" normalized || pyInStr "artikkel" normalized then do
      let lv ← extract_level item
      .ok (some ("publisert_artikkel_niva" ++ level_or_1 lv))
    else
      .ok (some "publisert_annet")

/-- `build_entries`: keep records whose year string equals
`str(report_year)`, drop excluded categories, format the rest.  The
target year is taken already coerced to `str`. -/
def build_entries : List Item → String → Except String (List PublicationEntry)
  | [], _ => .ok []
  | item :: rest, year_str =>
      if extract_year item ≠ year_str then build_entries rest year_str
      else do
        let ck ← classify_publication item
        match ck with
        | Option.none => build_entries rest year_str
        | some key =>
            if key = "" then build_entries rest year_str
            else do
              let reference ← format_reference item
              let tail ← build_entries rest year_str
              .ok (⟨reference, key, extract_year item⟩ :: tail)

/-- `list.sort()` on Python strings: stable ascending lexicographic sort. -/
def sortStrings (l : List String) : List String :=
  l.mergeSort (fun a b => decide (a ≤ b))

/-- `group_references`: initialize every category key to `[]`, append
each entry's reference to its bucket (`setdefault` for unknown keys),
then sort each bucket. -/
def group_references (entries : List PublicationEntry) : List (String × List String) :=
  let grouped := CATEGORY_KEYS.map (fun k => (k, ([] : List String)))
  let grouped := entries.foldl (fun g e => dictAppend g e.category_key e.reference) grouped
  grouped.map (fun p => (p.1, sortStrings p.2))

/-- `format_formidling_entry`: dissemination/activity entry text. -/
def format_formidling_entry (item : Item) : Except String String := do
  let title := get_title item
  let year := if extract_year item = "" then "n.d." else extract_year item
  let authors ← format_authors item
  let event := pyOr (pyGet item "event" .none) (.dict [])
  let event_name ← vGet event "name" .none
  let event_location ← vGet event "location" .none
  let ct ← vGet (pyOr (pyGet item "channel" .none) (.dict [])) "title" .none
  let channel_title ←
    if truthy ct then .ok ct
    else vGet (pyOr (pyGet item "journal" .none) (.dict [])) "name" .none
  let first :=
    if authors ≠ "" ∧ authors ≠ "Unknown author" then
      authors ++ " (" ++ year ++ "). " ++ pyStr title ++ "."
    else
      pyStr title ++ " (" ++ year ++ ")."
  let parts :=
    if truthy event_name then
      let venue :=
        if truthy event_location then pyStr event_name ++ ", " ++ pyStr event_location
        else pyStr event_name
      [first, venue ++ "."]
    else if truthy channel_title then
      [first, pyStr channel_title ++ "."]
    else
      [first]
  .ok (pyStripS (pyJoin " " parts))

/-- Manual-field key selection of `build_auto_manual_fields`:
category code first (when truthy and in `FORMIDLING_CATEGORY_MAP`),
else label substring rules on the normalized label. -/
def bamf_label_key (label : PyVal) : Except String (Option String) :=
  if truthy label then do
    let normalized ← normalize_text label
    if pyInStr "interview" normalized then .ok (some "formidling_media")
    else if pyInStr "poster" normalized || pyInStr "presentation" normalized
        || pyInStr "lecture" normalized then .ok (some "formidling_faglig")
    else .ok Option.none
  else .ok Option.none

def bamf_key (item : Item) : Except String (Option String) :=
  let code := (extract_category_code_name item).1
  let label := (extract_category_code_name item).2
  if truthy code && FORMIDLING_CATEGORY_MAP.any (fun p => pyEq code (.str p.1)) then
    .ok ((FORMIDLING_CATEGORY_MAP.find? (fun p => pyEq code (.str p.1))).map (·.2))
  else
    bamf_label_key label

/-- Loop of `build_auto_manual_fields` over the records. -/
def bamf_go (year_str : String) :
    List Item → List (String × List String) → Except String (List (String × List String))
  | [], grouped => .ok grouped
  | item :: rest, grouped =>
      if extract_year item ≠ year_str then bamf_go year_str rest grouped
      else do
        let mk ← bamf_key item
        match mk with
        | Option.none => bamf_go year_str rest grouped
        | some key =>
            if key = "" then bamf_go year_str rest grouped
            else do
              let text ← format_formidling_entry item
              bamf_go year_str rest (dictAppend grouped key text)

/-- `build_auto_manual_fields`: group dissemination texts per manual
field, joined by blank lines. -/
def build_auto_manual_fields (items : List Item) (year_str : String) :
    Except String (List (String × String)) :=
  (bamf_go year_str items (MANUAL_FIELD_KEYS.map (fun k => (k, [])))).map
    (fun grouped =>
      grouped.map (fun p => (p.1, if p.2.isEmpty then "" else pyJoin "\n\n" p.2)))

/-- `merge_manual_fields`: combine auto-populated and user-provided
manual fields (both value sets pass through `str(...).strip()`). -/
def merge_manual_fields (auto_fields : List (String × String))
    (manual_fields : Option (List (String × String))) : List (String × String) :=
  let manual := manual_fields.getD []
  MANUAL_FIELD_KEYS.map (fun key =>
    let auto_value := pyStripS ((alistGet auto_fields key).getD "")
    let manual_value := pyStripS ((alistGet manual key).getD "")
    (key, if auto_value ≠ "" ∧ manual_value ≠ "" then auto_value ++ "\n\n" ++ manual_value
          else if manual_value ≠ "" then manual_value else auto_value))

/-! ## Filename sanitizing -/

/-- The character class of `re.sub(r'[<>:"/\\\\|?*]+', "", ...)`. -/
def RESERVED_FILENAME_CHARS : List Char := ['<', '>', ':', '"', '/', '\\', '|', '?', '*']

/-- `re.sub(r"\\s+", " ", ...)`: the pattern (in a raw string) matches a
literal backslash followed by one or more letters `s`, replaced by a
single space.  (After the previous substitution removed every
backslash, this is the identity on the actual data.) -/
def subBS : List Char → List Char
  | [] => []
  | '\\' :: 's' :: rest2 => ' ' :: subBS (rest2.dropWhile (· == 's'))
  | c :: rest => c :: subBS rest
termination_by l => l.length
decreasing_by
  · simp only [List.length_cons]
    have := List.Sublist.length_le (List.dropWhile_sublist (l := rest2) (· == 's'))
    omega
  · simp [List.length_cons]

/-- The cleaning pipeline of `sanitize_filename` on a non-empty
stripped input: remove reserved characters, apply the (misspelled)
whitespace substitution, strip again, trim trailing dots and spaces. -/
def sanitize_core (cleaned : String) : String :=
  let c1 := cleaned.toList.filter (fun c => !(RESERVED_FILENAME_CHARS.contains c))
  let c2 := subBS c1
  let c3 := pyStrip c2
  ((c3.reverse.dropWhile (fun c => c == '.' || c == ' ')).reverse).asString

/-- `sanitize_filename`: strip, clean, and fall back when the input is
empty or cleans to empty. -/
def sanitize_filename (value fallback : String) : String :=
  let cleaned := pyStripS value
  if cleaned = "" then fallback
  else
    let c4 := sanitize_core cleaned
    if c4 = "" then fallback else c4

/-- `build_output_filename`. -/
def build_output_filename (person_name person_id report_year : String) : String :=
  let safe_name := sanitize_filename person_name (sanitize_filename person_id "report")
  let safe_year := sanitize_filename report_year "year"
  "Aarsrapport_" ++ safe_year ++ "_" ++ safe_name ++ ".docx"

/-! ## Registry client pagination -/

/-- One run of the `while page <= max_pages` loop of
`fetch_publications`.  The remote endpoint is a function from page
number to either a transport/HTTP failure (`raise_for_status`) or a
page of results; `remaining = max_pages - page + 1` counts the loop
iterations still allowed.  The second component records the pages
requested, in order. -/
def fetch_go (pages : Nat → Except Unit (List PyVal)) :
    Nat → Nat → List PyVal → List Nat → Except Unit (List PyVal) × List Nat
  | _, 0, acc, reqs => (.ok acc, reqs)
  | page, remaining + 1, acc, reqs =>
      match pages page with
      | .error e => (.error e, reqs ++ [page])
      | .ok page_results =>
          if page_results.isEmpty then (.ok acc, reqs ++ [page])
          else fetch_go pages (page + 1) remaining (acc ++ page_results) (reqs ++ [page])

/-- `fetch_publications`' pagination: start at page 1, stop on the first
empty page or after `max_pages` requests. -/
def fetch_publications (pages : Nat → Except Unit (List PyVal)) (max_pages : Nat) :
    Except Unit (List PyVal) × List Nat :=
  fetch_go pages 1 max_pages [] []

/-! ## Well-formedness

The extractors are not total over arbitrary dict records: a nested
field that is present but `null` or of an unexpected type makes the
corresponding Python attribute access raise.  `wf_record` captures the
shape under which every extractor used by `format_reference` succeeds:
each nested container field is absent or a dict, and the two iterated
list fields hold dicts. -/

def isDict : PyVal → Bool
  | .dict _ => true
  | _ => false

def isListOfDicts : PyVal → Bool
  | .list xs => xs.all isDict
  | _ => false

def wf_contributors : PyVal → Bool
  | .dict c => isListOfDicts (pyGet c "preview" (.list []))
  | _ => false

def NESTED_DICT_FIELDS : List String :=
  ["journal", "event", "channel", "publication_context", "publicationContext",
   "publication_channel", "publicationChannel"]

def wf_record (item : Item) : Bool :=
  wf_contributors (pyGet item "contributors" (.dict [])) &&
  isListOfDicts (pyGet item "links" (.list [])) &&
  NESTED_DICT_FIELDS.all (fun k => isDict (pyGet item k (.dict [])))

/-- A well-formed sample record (the repository test suite's
`sample_record`). -/
def sample_item : Item := [
  ("contributors", .dict [("preview", .list [.dict [("surname", .str "Doe"),
    ("first_name", .str "Jane")]])]),
  ("year_published", .int 2024),
  ("title", .dict [("en", .str "Sample Publication")]),
  ("journal", .dict [("name", .str "Journal of Testing"), ("level", .str "2")]),
  ("volume", .str "12"),
  ("pages", .dict [("from", .str "10"), ("to", .str "20")]),
  ("links", .list [.dict [("url_type", .str "DOI"),
    ("url", .str "https://doi.org/10.0000/example")]]),
  ("category", .dict [("code", .str "ARTICLE"), ("name", .dict [("en", .str "Journal article")])])
]

/-- A media-interview dissemination record for the target year. -/
def interview_item : Item := [
  ("category", .dict [("code", .str "MEDIAINTERVIEW")]),
  ("year_published", .int 2024),
  ("title", .dict [("en", .str "Intervju")])
]

/-! ## Basic lemmas about the embedding -/

theorem ok_bind {ε α β : Type} (a : α) (f : α → Except ε β) :
    (Except.ok a >>= f : Except ε β) = f a := rfl

theorem error_bind {ε α β : Type} (e : ε) (f : α → Except ε β) :
    (Except.error e >>= f : Except ε β) = Except.error e := rfl

theorem pyEq_str_iff (v : PyVal) (s : String) : pyEq v (.str s) = true ↔ v = .str s := by
  cases v <;> simp [pyEq]

theorem isDict_exists {v : PyVal} (h : isDict v = true) : ∃ f, v = .dict f := by
  cases v <;> simp_all [isDict]

theorem vGet_ok_of_isDict {v : PyVal} (h : isDict v = true) (k : String) (d : PyVal) :
    ∃ w, vGet v k d = .ok w := by
  obtain ⟨f, rfl⟩ := isDict_exists h
  exact ⟨_, rfl⟩

theorem pyIter_ok_of_list {v : PyVal} {xs : List PyVal} (h : v = .list xs) :
    pyIter v = .ok xs := by subst h; rfl

theorem isListOfDicts_exists {v : PyVal} (h : isListOfDicts v = true) :
    ∃ xs, v = .list xs ∧ xs.all isDict = true := by
  cases v <;> simp_all [isListOfDicts]

theorem alistGet_dictAppend (g : List (String × List String)) (k v k') :
    alistGet (dictAppend g k v) k' =
      if k' = k then some ((alistGet g k).getD [] ++ [v]) else alistGet g k' := by
  induction g with
  | nil =>
      by_cases h : k' = k
      · subst h; simp [dictAppend, alistGet]
      · have hne : ¬ k = k' := fun hc => h hc.symm
        simp [dictAppend, alistGet, h, hne]
  | cons p rest ih =>
      by_cases hpk : p.1 = k
      · by_cases h : k' = k
        · subst h; simp [dictAppend, alistGet, hpk]
        · have hne : ¬ k = k' := fun hc => h hc.symm
          simp [dictAppend, alistGet, hpk, h, hne]
      · by_cases h : k' = p.1
        · have hk : ¬ k' = k := by
            intro hc; exact hpk (by rw [← h, hc])
          simp [dictAppend, alistGet, hpk, h.symm, hk]
        · have hne : ¬ p.1 = k' := fun hc => h hc.symm
          by_cases hk : k' = k
          · subst hk; simp [dictAppend, alistGet, hpk, hne, ih]
          · simp [dictAppend, alistGet, hpk, hne, hk, ih]

theorem alistGet_mapSnd {α β : Type} (g : List (String × α)) (f : α → β) (k : String) :
    alistGet (g.map (fun p => (p.1, f p.2))) k = (alistGet g k).map f := by
  induction g with
  | nil => rfl
  | cons p rest ih =>
      by_cases h : p.1 = k <;> simp [alistGet, h, ih]

theorem alistGet_mapFun {α : Type} (ks : List String) (f : String → α) (k : String)
    (h : k ∈ ks) : alistGet (ks.map (fun x => (x, f x))) k = some (f k) := by
  induction ks with
  | nil => cases h
  | cons x rest ih =>
      by_cases hx : x = k
      · subst hx; simp [alistGet]
      · have hmem : k ∈ rest := by
          rcases List.mem_cons.mp h with h1 | h1
          · exact absurd h1.symm hx
          · exact h1
        simp [alistGet, hx, ih hmem]

theorem sortStrings_sorted (l : List String) : List.Sorted (· ≤ ·) (sortStrings l) := by
  have htrans : ∀ a b c : String,
      (fun a b : String => decide (a ≤ b)) a b = true →
      (fun a b : String => decide (a ≤ b)) b c = true →
      (fun a b : String => decide (a ≤ b)) a c = true := by
    intro a b c hab hbc
    exact decide_eq_true (le_trans (of_decide_eq_true hab) (of_decide_eq_true hbc))
  have htotal : ∀ a b : String,
      ((fun a b : String => decide (a ≤ b)) a b
        || (fun a b : String => decide (a ≤ b)) b a) = true := by
    intro a b
    simp only [Bool.or_eq_true, decide_eq_true_eq]
    exact le_total a b
  have h := @List.sorted_mergeSort String (fun a b : String => decide (a ≤ b)) htrans htotal l
  exact h.imp (fun hab => of_decide_eq_true hab)

theorem pyJoin_mem_split {t : String} {l : List String} (h : t ∈ l) (sep : String) :
    ∃ pre suf, pyJoin sep l = pre ++ t ++ suf := by
  induction l with
  | nil => cases h
  | cons x rest ih =>
      rcases List.mem_cons.mp h with h1 | h1
      · subst h1
        cases rest with
        | nil => exact ⟨"", "", by simp [pyJoin]⟩
        | cons y t2 => exact ⟨"", sep ++ pyJoin sep (y :: t2), by simp [pyJoin, String.append_assoc]⟩
      · obtain ⟨pre, suf, hps⟩ := ih h1
        cases rest with
        | nil => cases h1
        | cons y t2 =>
            exact ⟨x ++ sep ++ pre, suf, by simp [pyJoin, hps, String.append_assoc]⟩

theorem format_authors_go_ok {l : List PyVal} (h : l.all isDict = true) :
    ∃ ns, format_authors_go l = .ok ns := by
  induction l with
  | nil => exact ⟨[], rfl⟩
  | cons a rest ih =>
      simp only [List.all_cons, Bool.and_eq_true] at h
      obtain ⟨f, rfl⟩ := isDict_exists h.1
      obtain ⟨ns, hns⟩ := ih h.2
      simp only [format_authors_go, vGet, ok_bind, hns]
      split
      · exact ⟨_, rfl⟩
      · exact ⟨_, rfl⟩

theorem extract_doi_go_ok {l : List PyVal} (h : l.all isDict = true) :
    ∃ w, extract_doi_go l = .ok w := by
  induction l with
  | nil => exact ⟨_, rfl⟩
  | cons a rest ih =>
      simp only [List.all_cons, Bool.and_eq_true] at h
      obtain ⟨f, rfl⟩ := isDict_exists h.1
      obtain ⟨w, hw⟩ := ih h.2
      simp only [extract_doi_go, vGet, ok_bind]
      split
      · split
        · exact ⟨_, rfl⟩
        · exact ⟨w, hw⟩
      · exact ⟨w, hw⟩

theorem wf_record_parts {item : Item} (h : wf_record item = true) :
    (∃ c, pyGet item "contributors" (.dict []) = .dict c ∧
      ∃ xs, pyGet c "preview" (.list []) = .list xs ∧ xs.all isDict = true) ∧
    (∃ ls, pyGet item "links" (.list []) = .list ls ∧ ls.all isDict = true) ∧
    (∀ k ∈ NESTED_DICT_FIELDS, ∃ f, pyGet item k (.dict []) = .dict f) := by
  simp only [wf_record, Bool.and_eq_true] at h
  obtain ⟨⟨h1, h2⟩, h3⟩ := h
  refine ⟨?_, ?_, ?_⟩
  · rcases hv : pyGet item "contributors" (.dict []) with _ | _ | _ | _ | _ | c <;>
      rw [hv] at h1 <;> simp [wf_contributors] at h1
    obtain ⟨xs, hxs, hall⟩ := isListOfDicts_exists h1
    exact ⟨c, rfl, xs, hxs, hall⟩
  · obtain ⟨ls, hls, hall⟩ := isListOfDicts_exists h2
    exact ⟨ls, hls, hall⟩
  · intro k hk
    exact isDict_exists (List.all_eq_true.mp h3 k hk)

theorem format_authors_ok {item : Item} (h : wf_record item = true) :
    ∃ a, format_authors item = .ok a := by
  obtain ⟨⟨c, hc, xs, hxs, hall⟩, _, _⟩ := wf_record_parts h
  obtain ⟨ns, hns⟩ := format_authors_go_ok hall
  simp only [format_authors, hc, vGet, ok_bind, hxs, pyIter, hns]
  exact ⟨_, rfl⟩

theorem extract_doi_ok {item : Item} (h : wf_record item = true) :
    ∃ d, extract_doi item = .ok d := by
  obtain ⟨_, ⟨ls, hls, hall⟩, _⟩ := wf_record_parts h
  obtain ⟨w, hw⟩ := extract_doi_go_ok hall
  simp only [extract_doi, hls, pyIter, ok_bind, hw]
  exact ⟨_, rfl⟩

theorem extract_level_ok {item : Item} (h : wf_record item = true) :
    ∃ lv, extract_level item = .ok lv := by
  obtain ⟨_, _, h3⟩ := wf_record_parts h
  obtain ⟨f1, hf1⟩ := h3 "journal" (by simp [NESTED_DICT_FIELDS])
  obtain ⟨f2, hf2⟩ := h3 "channel" (by simp [NESTED_DICT_FIELDS])
  obtain ⟨f3, hf3⟩ := h3 "publication_context" (by simp [NESTED_DICT_FIELDS])
  obtain ⟨f4, hf4⟩ := h3 "publicationContext" (by simp [NESTED_DICT_FIELDS])
  obtain ⟨f5, hf5⟩ := h3 "publication_channel" (by simp [NESTED_DICT_FIELDS])
  obtain ⟨f6, hf6⟩ := h3 "publicationChannel" (by simp [NESTED_DICT_FIELDS])
  simp only [extract_level, hf1, hf2, hf3, hf4, hf5, hf6, vGet, ok_bind]
  exact ⟨_, rfl⟩

theorem pub_info_ok {item : Item} (h : wf_record item = true) :
    ∃ p, pub_info item = .ok p := by
  obtain ⟨_, _, h3⟩ := wf_record_parts h
  obtain ⟨f1, hf1⟩ := h3 "journal" (by simp [NESTED_DICT_FIELDS])
  obtain ⟨f2, hf2⟩ := h3 "event" (by simp [NESTED_DICT_FIELDS])
  obtain ⟨f3, hf3⟩ := h3 "channel" (by simp [NESTED_DICT_FIELDS])
  simp only [pub_info, hf1, hf2, hf3, vGet, ok_bind]
  split
  · exact ⟨_, rfl⟩
  · split
    · exact ⟨_, rfl⟩
    · exact ⟨_, rfl⟩

theorem format_reference_parts {item : Item} (h : wf_record item = true) :
    ∃ a p d, format_authors item = .ok a ∧ pub_info item = .ok p ∧ extract_doi item = .ok d ∧
      format_reference item = .ok (
        let base := a ++ " (" ++ (if extract_year item = "" then "n.d." else extract_year item)
          ++ "). " ++ pyStr (get_title item) ++ ". " ++ pyStr p ++ ", Volume "
          ++ volume_str item ++ ", pp. " ++ pages_str item ++ "."
        if truthy d then base ++ " " ++ pyStr d ++ "." else base) := by
  obtain ⟨a, ha⟩ := format_authors_ok h
  obtain ⟨p, hp⟩ := pub_info_ok h
  obtain ⟨d, hd⟩ := extract_doi_ok h
  refine ⟨a, p, d, ha, hp, hd, ?_⟩
  simp only [format_reference, ha, hp, hd, ok_bind]

/-! ## Claim theorems -/

/-- C2 (corrected).  Amended claim: over well-formed records — every
nested container field absent or a dict, the iterated `links` and
`contributors.preview` lists holding dicts — each fallible extractor
returns a value and never raises; `get_title` and `extract_year` are
total over all records by construction (they are plain Lean functions).
As stated over *every* dict record the claim is false: a field of
interest that is present but null or of an unexpected type makes the
extractor raise, see `extractors_raise_on_null_fields`. -/
theorem extractors_total (item : Item) (h : wf_record item = true) :
    (∃ a, format_authors item = .ok a) ∧ (∃ d, extract_doi item = .ok d) ∧
    (∃ lv, extract_level item = .ok lv) ∧ (∃ p, pub_info item = .ok p) ∧
    (∃ s, format_reference item = .ok s) := by
  obtain ⟨a, p, d, ha, hp, hd, hr⟩ := format_reference_parts h
  exact ⟨⟨a, ha⟩, ⟨d, hd⟩, extract_level_ok h, ⟨p, hp⟩, ⟨_, hr⟩⟩

/-- C2 counterexample: extractors raise on present-but-null or
ill-typed fields (`{"contributors": None}` raises `AttributeError`,
`{"publication_context": 3}` raises `AttributeError`,
`{"links": None}` raises `TypeError`). -/
theorem extractors_raise_on_null_fields :
    format_authors [("contributors", PyVal.none)] = .error "AttributeError: get" ∧
    extract_level [("publication_context", PyVal.int 3)] = .error "AttributeError: get" ∧
    extract_doi [("links", PyVal.none)] = .error "TypeError: not iterable" :=
  ⟨rfl, rfl, rfl⟩

/-- C2 witness: the sample record is well-formed and every extractor
succeeds on it. -/
theorem extractors_total_witness :
    wf_record sample_item = true ∧
    ((∃ a, format_authors sample_item = .ok a) ∧ (∃ d, extract_doi sample_item = .ok d) ∧
     (∃ lv, extract_level sample_item = .ok lv) ∧ (∃ p, pub_info sample_item = .ok p) ∧
     (∃ s, format_reference sample_item = .ok s)) :=
  ⟨rfl, extractors_total sample_item rfl⟩

/-- C6 (corrected).  Amended claim: over well-formed records,
`format_reference` returns exactly
`"{authors} ({year}). {title}. {venue}, Volume {volume}, pp. {from}-{to}."`,
with volume and each page bound independently defaulting to `"N/A"`,
year defaulting to `"n.d."` when extraction yields the empty string,
authors defaulting to `"Unknown author"` (inside `format_authors`), and
`" {doi}."` appended exactly when a truthy DOI link is present.  As
stated over every record it is false: `format_reference` can raise
instead of returning a string, see
`format_reference_raises_on_null_journal`. -/
theorem format_reference_shape (item : Item) (h : wf_record item = true) :
    ∃ a p d, format_authors item = .ok a ∧ pub_info item = .ok p ∧ extract_doi item = .ok d ∧
      format_reference item = .ok (
        let base := a ++ " (" ++ (if extract_year item = "" then "n.d." else extract_year item)
          ++ "). " ++ pyStr (get_title item) ++ ". " ++ pyStr p ++ ", Volume "
          ++ volume_str item ++ ", pp. " ++ pages_str item ++ "."
        if truthy d then base ++ " " ++ pyStr d ++ "." else base) ∧
      volume_str item = (if truthy (pyGet item "volume" PyVal.none)
        then pyStr (pyGet item "volume" PyVal.none) else "N/A") ∧
      pages_str item = pyStr (pyGet (pages_obj item) "from" (.str "N/A")) ++ "-"
        ++ pyStr (pyGet (pages_obj item) "to" (.str "N/A")) := by
  obtain ⟨a, p, d, ha, hp, hd, hr⟩ := format_reference_parts h
  refine ⟨a, p, d, ha, hp, hd, hr, ?_, rfl⟩
  simp only [volume_str, pyOr]
  split <;> rfl

/-- C6 counterexample: a record whose `journal` field is null makes
`format_reference` raise rather than return the formatted string. -/
theorem format_reference_raises_on_null_journal :
    format_reference [("journal", PyVal.none)] = .error "AttributeError: get" := rfl

/-- C6 witness: the shape theorem instantiated at the sample record. -/
theorem format_reference_shape_witness :
    wf_record sample_item = true ∧
    (∃ a p d, format_authors sample_item = .ok a ∧ pub_info sample_item = .ok p ∧
      extract_doi sample_item = .ok d ∧
      format_reference sample_item = .ok (
        let base := a ++ " (" ++ (if extract_year sample_item = "" then "n.d."
            else extract_year sample_item)
          ++ "). " ++ pyStr (get_title sample_item) ++ ". " ++ pyStr p ++ ", Volume "
          ++ volume_str sample_item ++ ", pp. " ++ pages_str sample_item ++ "."
        if truthy d then base ++ " " ++ pyStr d ++ "." else base) ∧
      volume_str sample_item = (if truthy (pyGet sample_item "volume" PyVal.none)
        then pyStr (pyGet sample_item "volume" PyVal.none) else "N/A") ∧
      pages_str sample_item = pyStr (pyGet (pages_obj sample_item) "from" (.str "N/A")) ++ "-"
        ++ pyStr (pyGet (pages_obj sample_item) "to" (.str "N/A"))) :=
  ⟨rfl, format_reference_shape sample_item rfl⟩

/-- C1 (corrected).  Amended claim: whenever `classify_publication`
returns a result, it is deterministic (immediate: the embedding is a
pure function) and code-based rules override label-based rules — a code
in the non-publication set yields Excluded, code `"ARTICLE"` yields the
article bucket at the extracted level (default 1) and code `"TEXTBOOK"`
the monograph bucket, whatever the label says; the label substring
rules are only reached otherwise.  As stated over every record the
claim is false: with code `"ARTICLE"`, a non-string category label
makes `classify_publication` raise instead of returning the article
bucket, see `classify_publication_label_affects_article`. -/
theorem classify_publication_code_precedence (item : Item) (r : Option String)
    (h : classify_publication item = .ok r) :
    (NON_PUBLICATION_CATEGORY_CODES.any
        (fun s => pyEq (extract_category_code_name item).1 (.str s)) = true →
      r = Option.none) ∧
    ((extract_category_code_name item).1 = .str "ARTICLE" →
      ∃ lv, extract_level item = .ok lv ∧
        r = some ("publisert_artikkel_niva" ++ level_or_1 lv)) ∧
    ((extract_category_code_name item).1 = .str "TEXTBOOK" →
      ∃ lv, extract_level item = .ok lv ∧
        r = some ("publisert_monografi_niva" ++ level_or_1 lv)) := by
  refine ⟨?_, ?_, ?_⟩
  · intro hany
    simp only [classify_publication, hany, if_true] at h
    exact (Except.ok.inj h).symm
  · intro hcode
    have hany : NON_PUBLICATION_CATEGORY_CODES.any
        (fun s => pyEq (extract_category_code_name item).1 (.str s)) = false := by
      simp only [hcode]; decide
    have harticle : pyEq (PyVal.str "ARTICLE") (PyVal.str "ARTICLE") = true := by decide
    simp only [classify_publication, hany, Bool.false_eq_true, if_false, hcode, harticle,
      if_true] at h
    cases hn : normalize_text (pyOr (extract_category_code_name item).2 (.str "")) with
    | error e => rw [hn, error_bind] at h; cases h
    | ok n =>
        rw [hn, ok_bind] at h
        cases hl : extract_level item with
        | error e => rw [hl, error_bind] at h; cases h
        | ok lv =>
            rw [hl, ok_bind] at h
            exact ⟨lv, rfl, (Except.ok.inj h).symm⟩
  · intro hcode
    have hany : NON_PUBLICATION_CATEGORY_CODES.any
        (fun s => pyEq (extract_category_code_name item).1 (.str s)) = false := by
      simp only [hcode]; decide
    have hnota : pyEq (PyVal.str "TEXTBOOK") (PyVal.str "ARTICLE") = false := by decide
    have htb : pyEq (PyVal.str "TEXTBOOK") (PyVal.str "TEXTBOOK") = true := by decide
    simp only [classify_publication, hany, Bool.false_eq_true, if_false, hcode, hnota, htb,
      if_true] at h
    cases hn : normalize_text (pyOr (extract_category_code_name item).2 (.str "")) with
    | error e => rw [hn, error_bind] at h; cases h
    | ok n =>
        rw [hn, ok_bind] at h
        cases hl : extract_level item with
        | error e => rw [hl, error_bind] at h; cases h
        | ok lv =>
            rw [hl, ok_bind] at h
            exact ⟨lv, rfl, (Except.ok.inj h).symm⟩

/-- C1 counterexample: two records with category code `"ARTICLE"`
differing only in the category label; the non-string label makes
`classify_publication` raise instead of returning the article bucket,
so the result does depend on the label.  (With a string label the code
does override it, as the second conjunct shows on the spec's own
example, code `"ARTICLE"` with label `"Monograph"`.) -/
theorem classify_publication_label_affects_article :
    classify_publication [("category", PyVal.dict [("code", PyVal.str "ARTICLE"),
        ("name", PyVal.dict [("en", PyVal.int 5)])])]
      = .error "TypeError: normalize_text expects str" ∧
    classify_publication [("category", PyVal.dict [("code", PyVal.str "ARTICLE"),
        ("name", PyVal.dict [("en", PyVal.str "Monograph")])])]
      = .ok (some "publisert_artikkel_niva1") :=
  ⟨rfl, rfl⟩

/-- C1 witness: the precedence theorem instantiated at the sample
record (code `"ARTICLE"`, journal level `"2"`, label `"Journal
article"`). -/
theorem classify_publication_code_precedence_witness :
    (NON_PUBLICATION_CATEGORY_CODES.any
        (fun s => pyEq (extract_category_code_name sample_item).1 (.str s)) = true →
      some "publisert_artikkel_niva2" = Option.none) ∧
    ((extract_category_code_name sample_item).1 = .str "ARTICLE" →
      ∃ lv, extract_level sample_item = .ok lv ∧
        some "publisert_artikkel_niva2" = some ("publisert_artikkel_niva" ++ level_or_1 lv)) ∧
    ((extract_category_code_name sample_item).1 = .str "TEXTBOOK" →
      ∃ lv, extract_level sample_item = .ok lv ∧
        some "publisert_artikkel_niva2" = some ("publisert_monografi_niva" ++ level_or_1 lv)) :=
  classify_publication_code_precedence sample_item (some "publisert_artikkel_niva2") rfl

/-- C10 (corrected).  Amended claim: whenever `classify_publication`
returns a value and level extraction yields nothing, `"1"` or `"2"`,
the result is Excluded or a member of the declared `CATEGORY_KEYS`.  As
stated over every dict record the claim is false: Python's `True == 1`
lets a boolean level through the `value in (1, 2, "1", "2")` test, and
`str(True)` interpolates the suffix `"True"`, producing the undeclared
key `"publisert_artikkel_nivaTrue"`, see
`classify_publication_boolean_level`. -/
theorem classify_publication_bucket_closure (item : Item) (ro : Option String)
    (h : classify_publication item = .ok ro)
    (hlv : extract_level item = .ok Option.none ∨ extract_level item = .ok (some "1")
      ∨ extract_level item = .ok (some "2")) :
    ro = Option.none ∨ ∃ r, ro = some r ∧ r ∈ CATEGORY_KEYS := by
  rcases hlv with h1 | h1 | h1 <;>
  · simp only [classify_publication] at h
    split at h
    · exact Or.inl (Except.ok.inj h).symm
    · cases hn : normalize_text (pyOr (extract_category_code_name item).2 (.str "")) with
      | error e => rw [hn, error_bind] at h; cases h
      | ok n =>
          rw [hn, ok_bind] at h
          repeat' split at h
          all_goals first
            | exact Or.inr ⟨_, (Except.ok.inj h).symm, by decide⟩
            | (rw [h1, ok_bind] at h
               exact Or.inr ⟨_, (Except.ok.inj h).symm, by decide⟩)

/-- C10 counterexample: a record with code `"ARTICLE"` and a boolean
`level` field classifies to `"publisert_artikkel_nivaTrue"`, outside
the declared bucket-key set. -/
theorem classify_publication_boolean_level :
    classify_publication [("category", PyVal.dict [("code", PyVal.str "ARTICLE")]),
        ("level", PyVal.bool true)]
      = .ok (some "publisert_artikkel_nivaTrue") ∧
    "publisert_artikkel_nivaTrue" ∉ CATEGORY_KEYS :=
  ⟨rfl, by decide⟩

/-- C10 witness: the closure theorem instantiated at the sample record
(level `"2"`). -/
theorem classify_publication_bucket_closure_witness :
    some "publisert_artikkel_niva2" = Option.none ∨
    ∃ r, some "publisert_artikkel_niva2" = some r ∧ r ∈ CATEGORY_KEYS :=
  classify_publication_bucket_closure sample_item (some "publisert_artikkel_niva2") rfl
    (Or.inr (Or.inr rfl))

/-- C3 (corrected).  Amended claim: `build_entries` keeps a record only
when its extracted year string equals the target year string (the year
field of every produced entry is that string), and a record lacking a
year (extracted year `""`) is excluded for every *non-empty* requested
year string.  As stated the claim is false: the requested year is only
coerced with `str(...)`, so the empty target string matches every
record lacking a year, see `build_entries_keeps_yearless_for_empty_target`. -/
theorem build_entries_year_filter (y : String) :
    (∀ item rest, extract_year item ≠ y →
      build_entries (item :: rest) y = build_entries rest y) ∧
    (∀ items l e, build_entries items y = .ok l → e ∈ l → e.year = y) ∧
    (y ≠ "" → ∀ item rest, extract_year item = "" →
      build_entries (item :: rest) y = build_entries rest y) := by
  have hskip : ∀ item rest, extract_year item ≠ y →
      build_entries (item :: rest) y = build_entries rest y := by
    intro item rest hne
    simp only [build_entries]
    rw [if_pos hne]
  refine ⟨hskip, ?_, ?_⟩
  · intro items
    induction items with
    | nil =>
        intro l e hl he
        cases hl
        cases he
    | cons item rest ih =>
        intro l e hl he
        by_cases hy : extract_year item ≠ y
        · rw [hskip item rest hy] at hl
          exact ih l e hl he
        · push_neg at hy
          simp only [build_entries, hy, if_neg (fun hc : ¬ y = y => hc rfl)] at hl
          cases hck : classify_publication item with
          | error e2 => rw [hck, error_bind] at hl; cases hl
          | ok ck =>
              rw [hck, ok_bind] at hl
              cases ck with
              | none => exact ih l e hl he
              | some key =>
                  dsimp only at hl
                  by_cases hkey : key = ""
                  · rw [if_pos hkey] at hl
                    exact ih l e hl he
                  · rw [if_neg hkey] at hl
                    cases hr : format_reference item with
                    | error e3 => rw [hr, error_bind] at hl; cases hl
                    | ok refr =>
                        rw [hr, ok_bind] at hl
                        cases ht : build_entries rest y with
                        | error e4 => rw [ht, error_bind] at hl; cases hl
                        | ok tail =>
                            rw [ht, ok_bind] at hl
                            cases hl
                            rcases List.mem_cons.mp he with h1 | h1
                            · rw [h1]
                            · exact ih tail e ht h1
  · intro hy item rest hitem
    exact hskip item rest (by rw [hitem]; exact fun hc => hy hc.symm)

/-- C3 counterexample: with the empty requested year string, the empty
record — which lacks a year, `extract_year` yields `""` — is kept, not
excluded. -/
theorem build_entries_keeps_yearless_for_empty_target :
    extract_year ([] : Item) = "" ∧
    build_entries [([] : Item)] "" =
      .ok [⟨"Unknown author (n.d.). No title available. No publication information available, Volume N/A, pp. N/A-N/A.",
            "publisert_annet", ""⟩] :=
  ⟨rfl, rfl⟩

/-- C3 witness: the filter theorem instantiated at year `"2024"`, a
record from 2023 and the singleton tail. -/
theorem build_entries_year_filter_witness :
    build_entries [[("year_published", PyVal.int 2023)]] "2024" = build_entries [] "2024" ∧
    (∀ l e, build_entries [sample_item] "2024" = .ok l → e ∈ l → e.year = "2024") ∧
    build_entries [([] : Item)] "2024" = build_entries [] "2024" := by
  refine ⟨(build_entries_year_filter "2024").1 _ _ (by decide), ?_, ?_⟩
  · intro l e hl he
    exact (build_entries_year_filter "2024").2.1 [sample_item] l e hl he
  · exact (build_entries_year_filter "2024").2.2 (by decide) _ _ rfl

theorem foldl_dictAppend_isSome (entries : List PublicationEntry)
    (g : List (String × List String)) (k : String)
    (h : (alistGet g k).isSome = true) :
    (alistGet (entries.foldl (fun g e => dictAppend g e.category_key e.reference) g) k).isSome
      = true := by
  induction entries generalizing g with
  | nil => exact h
  | cons e rest ih =>
      apply ih
      rw [alistGet_dictAppend]
      by_cases hk : k = e.category_key
      · simp [hk]
      · simpa [hk] using h

theorem foldl_dictAppend_untouched (entries : List PublicationEntry)
    (g : List (String × List String)) (k : String)
    (h : ∀ e ∈ entries, e.category_key ≠ k) :
    alistGet (entries.foldl (fun g e => dictAppend g e.category_key e.reference) g) k
      = alistGet g k := by
  induction entries generalizing g with
  | nil => rfl
  | cons e rest ih =>
      have hne : ¬ k = e.category_key := fun hc => h e (List.mem_cons_self e rest) hc.symm
      rw [List.foldl_cons, ih _ (fun x hx => h x (List.mem_cons_of_mem e hx)),
        alistGet_dictAppend, if_neg hne]

/-- C4 (confirmed).  `group_references` always contains every declared
bucket key — with `some []` when no entry matches that bucket — and
every bucket list in the result is sorted lexicographically by the full
formatted reference string. -/
theorem group_references_complete_sorted (entries : List PublicationEntry) :
    (∀ k ∈ CATEGORY_KEYS, ∃ l, alistGet (group_references entries) k = some l) ∧
    (∀ k l, alistGet (group_references entries) k = some l → List.Sorted (· ≤ ·) l) ∧
    (∀ k ∈ CATEGORY_KEYS, (∀ e ∈ entries, e.category_key ≠ k) →
      alistGet (group_references entries) k = some []) := by
  have hmap : ∀ k, alistGet (group_references entries) k =
      (alistGet (entries.foldl (fun g e => dictAppend g e.category_key e.reference)
        (CATEGORY_KEYS.map (fun x => (x, ([] : List String))))) k).map sortStrings := by
    intro k
    simp only [group_references]
    exact alistGet_mapSnd _ _ _
  refine ⟨?_, ?_, ?_⟩
  · intro k hk
    have h0 : alistGet (CATEGORY_KEYS.map (fun x => (x, ([] : List String)))) k = some [] :=
      alistGet_mapFun CATEGORY_KEYS (fun _ => []) k hk
    have h1 := foldl_dictAppend_isSome entries _ k (by rw [h0]; rfl)
    obtain ⟨l, hl⟩ := Option.isSome_iff_exists.mp h1
    exact ⟨sortStrings l, by rw [hmap k, hl]; rfl⟩
  · intro k l hl
    rw [hmap k] at hl
    obtain ⟨l0, _, rfl⟩ := Option.map_eq_some'.mp hl
    exact sortStrings_sorted l0
  · intro k hk hnone
    rw [hmap k, foldl_dictAppend_untouched entries _ k hnone,
      alistGet_mapFun CATEGORY_KEYS (fun _ => []) k hk]
    simp [sortStrings, List.mergeSort_nil]

/-- C4 witness: a single `publisert_annet` entry; the bucket is
present, its list is sorted, and an unmatched bucket is `some []`. -/
theorem group_references_complete_sorted_witness :
    (∃ l, alistGet (group_references [⟨"a", "publisert_annet", "2024"⟩])
      "publisert_annet" = some l) ∧
    List.Sorted (· ≤ ·) (sortStrings ["a"]) ∧
    alistGet (group_references [⟨"a", "publisert_annet", "2024"⟩])
      "publisert_book_review" = some [] := by
  have h := group_references_complete_sorted [⟨"a", "publisert_annet", "2024"⟩]
  exact ⟨h.1 "publisert_annet" (by decide),
    h.2.1 "publisert_annet" (sortStrings ["a"]) rfl,
    h.2.2 "publisert_book_review" (by decide) (by decide)⟩

/-- C5 (corrected).  Amended claim: for every manual-field key, with
`A` the *stripped* auto text and `U` the *stripped* user text,
`merge_manual_fields` yields `A` when only `A` is non-empty, `U` when
only `U` is non-empty, `A`, blank line, `U` when both are non-empty,
and `""` when neither is; every declared key is present (and in
declared order).  As stated the claim is false: both texts pass
through `str(...).strip()`, so a non-empty auto text with surrounding
whitespace is not returned unchanged, see
`merge_manual_fields_strips_auto`. -/
theorem merge_manual_fields_spec (auto_fields : List (String × String))
    (manual_fields : Option (List (String × String))) :
    (merge_manual_fields auto_fields manual_fields).map Prod.fst = MANUAL_FIELD_KEYS ∧
    ∀ key ∈ MANUAL_FIELD_KEYS,
      alistGet (merge_manual_fields auto_fields manual_fields) key =
        some (
          let a := pyStripS ((alistGet auto_fields key).getD "")
          let u := pyStripS ((alistGet (manual_fields.getD []) key).getD "")
          if a ≠ "" ∧ u ≠ "" then a ++ "\n\n" ++ u
          else if u ≠ "" then u else a) := by
  constructor
  · simp only [merge_manual_fields, List.map_map]
    exact List.map_id'' (fun x => rfl) MANUAL_FIELD_KEYS
  · intro key hk
    exact alistGet_mapFun MANUAL_FIELD_KEYS _ key hk

/-- C5 counterexample: an auto-only value `" x "` (non-empty) comes
back stripped to `"x"`, not unchanged. -/
theorem merge_manual_fields_strips_auto :
    alistGet (merge_manual_fields [("formidling_media", " x ")] Option.none)
      "formidling_media" = some "x" ∧ (" x " : String) ≠ "x" :=
  ⟨rfl, by decide⟩

/-- C5 witness: the merge theorem instantiated at an auto text and a
user text on the same key. -/
theorem merge_manual_fields_spec_witness :
    (merge_manual_fields [("formidling_media", "auto")]
        (some [("formidling_media", "user")])).map Prod.fst = MANUAL_FIELD_KEYS ∧
    alistGet (merge_manual_fields [("formidling_media", "auto")]
        (some [("formidling_media", "user")])) "formidling_media" = some "auto\n\nuser" := by
  have h := merge_manual_fields_spec [("formidling_media", "auto")]
    (some [("formidling_media", "user")])
  exact ⟨h.1, h.2 "formidling_media" (by decide)⟩

theorem toList_asString (l : List Char) : (l.asString).toList = l := rfl

theorem subBS_nil : subBS [] = [] := by rw [subBS.eq_def]

theorem subBS_cons_ne {c : Char} {rest : List Char}
    (hne : ∀ rest2, c = '\\' → rest = 's' :: rest2 → False) :
    subBS (c :: rest) = c :: subBS rest := by
  conv_lhs => rw [subBS.eq_def]
  split
  · rename_i heq; exact absurd heq (by simp)
  · rename_i rest2 heq
    rw [List.cons_eq_cons] at heq
    obtain ⟨hc, hr⟩ := heq
    exact (hne rest2 hc hr).elim
  · rename_i c2 rest2 hx heq
    rw [List.cons_eq_cons] at heq
    obtain ⟨hc, hr⟩ := heq
    rw [hc, hr]

theorem subBS_all {p : Char → Bool} (hsp : p ' ' = true) (l : List Char)
    (h : l.all p = true) : (subBS l).all p = true := by
  induction l using subBS.induct with
  | case1 => rw [subBS_nil]; exact h
  | case2 rest2 ih =>
      simp only [List.all_cons, Bool.and_eq_true] at h
      simp only [subBS, List.all_cons, Bool.and_eq_true]
      refine ⟨hsp, ih ?_⟩
      rw [List.all_eq_true]
      intro c hc
      exact List.all_eq_true.mp h.2.2 c ((List.dropWhile_sublist _).subset hc)
  | case3 c rest hne ih =>
      simp only [List.all_cons, Bool.and_eq_true] at h
      rw [subBS_cons_ne hne]
      simp only [List.all_cons, Bool.and_eq_true]
      exact ⟨h.1, ih h.2⟩

theorem pyStrip_subset {c : Char} {l : List Char} (h : c ∈ pyStrip l) : c ∈ l := by
  simp only [pyStrip] at h
  have h1 := List.mem_reverse.mp h
  have h2 := (List.dropWhile_sublist _).subset h1
  have h3 := List.mem_reverse.mp h2
  exact (List.dropWhile_sublist _).subset h3

theorem dropWhile_head_not {p : Char → Bool} {l : List Char} {c : Char} {rest : List Char}
    (h : l.dropWhile p = c :: rest) : p c = false := by
  induction l with
  | nil => cases h
  | cons x xs ih =>
      by_cases hx : p x = true
      · rw [List.dropWhile_cons_of_pos hx] at h; exact ih h
      · rw [List.dropWhile_cons_of_neg hx] at h
        cases h
        simpa using hx

/-- C9 (corrected).  Amended claim: for every input and every
*non-empty* fallback, `sanitize_filename` never returns an empty
string; it substitutes the fallback when the input strips to empty, and
otherwise returns either the fallback (when cleaning empties the input)
or a cleaned string containing none of the reserved characters
`< > : " / \ | ? *` and ending in neither a dot nor a space.  As
stated over every fallback the claim is false: with an empty fallback
and empty input it returns the empty string, see
`sanitize_filename_empty_fallback`. -/
theorem sanitize_filename_spec (v fb : String) (hfb : fb ≠ "") :
    sanitize_filename v fb ≠ "" ∧
    (pyStripS v = "" → sanitize_filename v fb = fb) ∧
    (sanitize_filename v fb = fb ∨
      ((sanitize_filename v fb).toList.all
        (fun c => !(RESERVED_FILENAME_CHARS.contains c)) = true ∧
       ∀ c, (sanitize_filename v fb).toList.getLast? = some c → c ≠ '.' ∧ c ≠ ' ')) := by
  by_cases h1 : pyStripS v = ""
  · have hr : sanitize_filename v fb = fb := by
      simp only [sanitize_filename]
      rw [if_pos h1]
    exact ⟨by rw [hr]; exact hfb, fun _ => hr, Or.inl hr⟩
  · by_cases h2 : sanitize_core (pyStripS v) = ""
    · have hr : sanitize_filename v fb = fb := by
        simp only [sanitize_filename]
        rw [if_neg h1, if_pos h2]
      exact ⟨by rw [hr]; exact hfb, fun hc => absurd hc h1, Or.inl hr⟩
    · have hr : sanitize_filename v fb = sanitize_core (pyStripS v) := by
        simp only [sanitize_filename]
        rw [if_neg h1, if_neg h2]
      refine ⟨by rw [hr]; exact h2, fun hc => absurd hc h1, Or.inr ⟨?_, ?_⟩⟩
      · rw [hr]
        simp only [sanitize_core, toList_asString, List.all_eq_true]
        intro c hc
        have hc1 := List.mem_reverse.mp hc
        have hc2 := (List.dropWhile_sublist _).subset hc1
        have hc3 := List.mem_reverse.mp hc2
        have hc4 := pyStrip_subset hc3
        have hall : ((pyStripS v).toList.filter
            (fun c => !(RESERVED_FILENAME_CHARS.contains c))).all
            (fun c => !(RESERVED_FILENAME_CHARS.contains c)) = true := by
          rw [List.all_eq_true]
          intro x hx
          exact (List.mem_filter.mp hx).2
        exact List.all_eq_true.mp (subBS_all (by decide) _ hall) c hc4
      · intro c hc
        rw [hr] at hc
        simp only [sanitize_core, toList_asString, List.getLast?_reverse] at hc
        cases hh : List.dropWhile (fun c => c == '.' || c == ' ')
            (pyStrip (subBS (List.filter (fun c => !RESERVED_FILENAME_CHARS.contains c)
              (pyStripS v).toList))).reverse with
        | nil => rw [hh] at hc; cases hc
        | cons x xs =>
            rw [hh] at hc
            have hx := dropWhile_head_not hh
            simp only [List.head?] at hc
            cases hc
            constructor
            · intro hcc; subst hcc; simp at hx
            · intro hcc; subst hcc; simp at hx

/-- C9 counterexample: with empty input and empty fallback the
sanitizer returns the empty string. -/
theorem sanitize_filename_empty_fallback : sanitize_filename "" "" = "" := rfl

/-- C9 witness: the sanitizer theorem instantiated at a name containing
reserved characters and trailing dots, with fallback `"report"`. -/
theorem sanitize_filename_spec_witness :
    sanitize_filename "a<b>.." "report" ≠ "" ∧
    (pyStripS "a<b>.." = "" → sanitize_filename "a<b>.." "report" = "report") ∧
    (sanitize_filename "a<b>.." "report" = "report" ∨
      ((sanitize_filename "a<b>.." "report").toList.all
        (fun c => !(RESERVED_FILENAME_CHARS.contains c)) = true ∧
       ∀ c, (sanitize_filename "a<b>.." "report").toList.getLast? = some c →
         c ≠ '.' ∧ c ≠ ' ')) :=
  sanitize_filename_spec "a<b>.." "report" (by decide)

theorem fetch_go_reqs (pages : Nat → Except Unit (List PyVal)) :
    ∀ (remaining page : Nat) (acc : List PyVal) (reqs : List Nat),
      ∃ n, n ≤ remaining ∧
        (fetch_go pages page remaining acc reqs).2 = reqs ++ List.range' page n ∧
        (∀ i, i + 1 < n → ∃ l, pages (page + i) = .ok l ∧ l ≠ []) := by
  intro remaining
  induction remaining with
  | zero =>
      intro page acc reqs
      exact ⟨0, Nat.le_refl 0, by simp [fetch_go], fun i hi => absurd hi (by omega)⟩
  | succ r ih =>
      intro page acc reqs
      cases hp : pages page with
      | error e =>
          refine ⟨1, by omega, ?_, fun i hi => absurd hi (by omega)⟩
          simp [fetch_go, hp]
      | ok pr =>
          by_cases hemp : pr.isEmpty
          · refine ⟨1, by omega, ?_, fun i hi => absurd hi (by omega)⟩
            simp [fetch_go, hp, hemp]
          · obtain ⟨n, hn, hreqs, hcond⟩ := ih (page + 1) (acc ++ pr) (reqs ++ [page])
            refine ⟨n + 1, by omega, ?_, ?_⟩
            · have hstep : fetch_go pages page (r + 1) acc reqs =
                  fetch_go pages (page + 1) r (acc ++ pr) (reqs ++ [page]) := by
                simp [fetch_go, hp, hemp]
              rw [hstep, hreqs, List.range'_succ, List.append_assoc]
              rfl
            · intro i hi
              cases i with
              | zero =>
                  refine ⟨pr, by rw [Nat.add_zero]; exact hp, ?_⟩
                  intro hcc
                  exact hemp (by rw [hcc]; rfl)
              | succ j =>
                  have := hcond j (by omega)
                  obtain ⟨l, hl, hlne⟩ := this
                  exact ⟨l, by rw [show page + (j + 1) = page + 1 + j by omega]; exact hl, hlne⟩

/-- C8 (confirmed).  The pagination loop of `fetch_publications`
terminates for every behaviour of the remote endpoint: it issues
sequential page requests starting at page 1, every requested page
before the last returned a non-empty result, and at most `max_pages`
(default `MAX_PAGES_DEFAULT = 25`) requests are ever issued — also
against an endpoint that never returns an empty page. -/
theorem fetch_publications_pagination (pages : Nat → Except Unit (List PyVal))
    (max_pages : Nat) :
    (fetch_publications pages max_pages).2.length ≤ max_pages ∧
    (fetch_publications pages max_pages).2 =
      List.range' 1 (fetch_publications pages max_pages).2.length ∧
    ∀ i, i + 1 < (fetch_publications pages max_pages).2.length →
      ∃ l, pages (1 + i) = .ok l ∧ l ≠ [] := by
  obtain ⟨n, hn, hreqs, hcond⟩ := fetch_go_reqs pages max_pages 1 [] []
  have hreqs' : (fetch_publications pages max_pages).2 = List.range' 1 n := by
    rw [fetch_publications, hreqs]; rfl
  have hlen : (fetch_publications pages max_pages).2.length = n := by
    rw [hreqs', List.length_range']
  refine ⟨by rw [hlen]; exact hn, by rw [hlen]; exact hreqs', ?_⟩
  intro i hi
  rw [hlen] at hi
  exact hcond i hi

/-- C8 witness: at most 25 sequential pages are requested from an
endpoint that never returns an empty page. -/
theorem fetch_publications_pagination_witness :
    (fetch_publications (fun _ => .ok [PyVal.int 1]) MAX_PAGES_DEFAULT).2.length
      ≤ MAX_PAGES_DEFAULT ∧
    (fetch_publications (fun _ => .ok [PyVal.int 1]) MAX_PAGES_DEFAULT).2 =
      List.range' 1
        (fetch_publications (fun _ => .ok [PyVal.int 1]) MAX_PAGES_DEFAULT).2.length :=
  ⟨(fetch_publications_pagination (fun _ => .ok [PyVal.int 1]) MAX_PAGES_DEFAULT).1,
   (fetch_publications_pagination (fun _ => .ok [PyVal.int 1]) MAX_PAGES_DEFAULT).2.1⟩

theorem bamf_go_append (y : String) (as bs : List Item) :
    ∀ g, bamf_go y (as ++ bs) g =
      (bamf_go y as g) >>= (fun g2 => bamf_go y bs g2) := by
  induction as with
  | nil => intro g; rfl
  | cons it rest ih =>
      intro g
      rw [List.cons_append]
      by_cases hy : extract_year it ≠ y
      · simp only [bamf_go]
        rw [if_pos hy, if_pos hy]
        exact ih g
      · simp only [bamf_go]
        rw [if_neg hy, if_neg hy]
        cases hbk : bamf_key it with
        | error e => simp only [hbk, error_bind]
        | ok mk =>
            simp only [hbk, ok_bind]
            cases mk with
            | none => exact ih g
            | some key =>
                dsimp only
                by_cases hkey : key = ""
                · rw [if_pos hkey, if_pos hkey]
                  exact ih g
                · rw [if_neg hkey, if_neg hkey]
                  cases hft : format_formidling_entry it with
                  | error e => simp only [hft, error_bind]
                  | ok t =>
                      simp only [hft, ok_bind]
                      exact ih (dictAppend g key t)

theorem bamf_go_mem_mono (y : String) (items : List Item) :
    ∀ g g' k t, bamf_go y items g = .ok g' →
      (∃ l, alistGet g k = some l ∧ t ∈ l) →
      ∃ l2, alistGet g' k = some l2 ∧ t ∈ l2 := by
  induction items with
  | nil =>
      intro g g' k t h hmem
      cases h
      exact hmem
  | cons it rest ih =>
      intro g g' k t h hmem
      simp only [bamf_go] at h
      by_cases hy : extract_year it ≠ y
      · rw [if_pos hy] at h
        exact ih _ _ _ _ h hmem
      · rw [if_neg hy] at h
        cases hbk : bamf_key it with
        | error e => rw [hbk, error_bind] at h; cases h
        | ok mk =>
            rw [hbk, ok_bind] at h
            cases mk with
            | none => exact ih _ _ _ _ h hmem
            | some key =>
                dsimp only at h
                by_cases hkey : key = ""
                · rw [if_pos hkey] at h
                  exact ih _ _ _ _ h hmem
                · rw [if_neg hkey] at h
                  cases hft : format_formidling_entry it with
                  | error e => rw [hft, error_bind] at h; cases h
                  | ok t2 =>
                      rw [hft, ok_bind] at h
                      refine ih _ _ _ _ h ?_
                      obtain ⟨l, hl, hmt⟩ := hmem
                      rw [alistGet_dictAppend]
                      by_cases hk : k = key
                      · refine ⟨(alistGet g key).getD [] ++ [t2], by rw [if_pos hk], ?_⟩
                        rw [← hk, hl]
                        exact List.mem_append_left _ hmt
                      · exact ⟨l, by rw [if_neg hk]; exact hl, hmt⟩

theorem bamf_go_interview_step (y : String) (it : Item) (post : List Item)
    (g : List (String × List String)) (t : String)
    (hcode : (extract_category_code_name it).1 = .str "MEDIAINTERVIEW")
    (hyear : extract_year it = y)
    (ht : format_formidling_entry it = .ok t) :
    bamf_go y (it :: post) g = bamf_go y post (dictAppend g "formidling_media" t) := by
  have hkey : bamf_key it = .ok (some "formidling_media") := by
    simp only [bamf_key, hcode]
    rfl
  simp only [bamf_go, hyear]
  rw [if_neg (fun hc : ¬ y = y => hc rfl)]
  simp only [hkey, ok_bind]
  rw [if_neg (by decide : ¬("formidling_media" : String) = "")]
  simp only [ht, ok_bind]

/-- C7 (corrected).  Amended claim: for every record with category code
`"MEDIAINTERVIEW"` whose extracted year equals the requested year,
`classify_publication` returns Excluded, the record contributes nothing
to `build_entries`, and whenever its dissemination formatting and
`build_auto_manual_fields` over a list containing it succeed, the
formatted text appears inside the `"formidling_media"` value.  As
stated over every such record the claim is false: an ill-typed nested
field makes the dissemination formatting raise, so
`build_auto_manual_fields` produces no fields at all, see
`mediainterview_formatting_raises`. -/
theorem mediainterview_excluded_and_reported
    (items : List Item) (y : String) (it : Item) (m : List (String × String)) (t : String)
    (hmem : it ∈ items)
    (hcode : (extract_category_code_name it).1 = .str "MEDIAINTERVIEW")
    (hyear : extract_year it = y)
    (ht : format_formidling_entry it = .ok t)
    (hm : build_auto_manual_fields items y = .ok m) :
    classify_publication it = .ok Option.none ∧
    (∀ rest, build_entries (it :: rest) y = build_entries rest y) ∧
    (∃ joined pre suf, alistGet m "formidling_media" = some joined ∧
      joined = pre ++ t ++ suf) := by
  have hcl : classify_publication it = .ok Option.none := by
    simp only [classify_publication, hcode]
    rfl
  refine ⟨hcl, ?_, ?_⟩
  · intro rest
    simp only [build_entries, hyear]
    rw [if_neg (fun hc : ¬ y = y => hc rfl)]
    simp only [hcl, ok_bind]
  · obtain ⟨pre0, post0, rfl⟩ := List.append_of_mem hmem
    simp only [build_auto_manual_fields] at hm
    cases hg : bamf_go y (pre0 ++ it :: post0)
        (MANUAL_FIELD_KEYS.map (fun k => (k, []))) with
    | error e => rw [hg] at hm; cases hm
    | ok gg =>
        rw [hg] at hm
        simp only [Except.map] at hm
        have hmm : m = gg.map (fun p =>
            (p.1, if p.2.isEmpty then "" else pyJoin "\n\n" p.2)) :=
          (Except.ok.inj hm).symm
        rw [bamf_go_append] at hg
        cases hg1 : bamf_go y pre0 (MANUAL_FIELD_KEYS.map (fun k => (k, []))) with
        | error e => rw [hg1, error_bind] at hg; cases hg
        | ok g1 =>
            rw [hg1, ok_bind] at hg
            rw [bamf_go_interview_step y it post0 g1 t hcode hyear ht] at hg
            have hmem2 : ∃ l, alistGet (dictAppend g1 "formidling_media" t)
                "formidling_media" = some l ∧ t ∈ l := by
              rw [alistGet_dictAppend, if_pos rfl]
              exact ⟨_, rfl, List.mem_append_right _ (List.mem_singleton.mpr rfl)⟩
            obtain ⟨l2, hl2, hml2⟩ :=
              bamf_go_mem_mono y post0 _ gg "formidling_media" t hg hmem2
            have hms : ∀ (g : List (String × List String)) (k : String),
                alistGet (g.map (fun p =>
                  (p.1, if p.2.isEmpty then "" else pyJoin "\n\n" p.2))) k =
                (alistGet g k).map (fun l => if l.isEmpty then "" else pyJoin "\n\n" l) := by
              intro g k
              induction g with
              | nil => rfl
              | cons p rest ih =>
                  dsimp only [List.map_cons, alistGet]
                  by_cases h : p.1 = k
                  · rw [if_pos h, if_pos h]
                    rfl
                  · rw [if_neg h, if_neg h]
                    exact ih
            have hjoin : alistGet m "formidling_media" =
                some (if l2.isEmpty then "" else pyJoin "\n\n" l2) := by
              rw [hmm, hms, hl2]
              rfl
            have hlne : l2.isEmpty = false := by
              cases l2 with
              | nil => cases hml2
              | cons a b => rfl
            rw [hlne] at hjoin
            simp only [Bool.false_eq_true, if_false] at hjoin
            obtain ⟨pre, suf, hps⟩ := pyJoin_mem_split hml2 "\n\n"
            exact ⟨pyJoin "\n\n" l2, pre, suf, hjoin, hps⟩

/-- C7 counterexample: a media-interview record in the requested year
whose `contributors` field is null; formatting it raises, so
`build_auto_manual_fields` errors and no `formidling_media` value is
produced at all. -/
theorem mediainterview_formatting_raises :
    (extract_category_code_name [("category", PyVal.dict [("code", PyVal.str "MEDIAINTERVIEW")]),
      ("year_published", PyVal.int 2024), ("contributors", PyVal.none)]).1
      = PyVal.str "MEDIAINTERVIEW" ∧
    extract_year [("category", PyVal.dict [("code", PyVal.str "MEDIAINTERVIEW")]),
      ("year_published", PyVal.int 2024), ("contributors", PyVal.none)] = "2024" ∧
    build_auto_manual_fields [[("category", PyVal.dict [("code", PyVal.str "MEDIAINTERVIEW")]),
      ("year_published", PyVal.int 2024), ("contributors", PyVal.none)]] "2024"
      = .error "AttributeError: get" :=
  ⟨rfl, rfl, rfl⟩

/-- C7 witness: the routing theorem instantiated at the concrete
interview record. -/
theorem mediainterview_excluded_and_reported_witness :
    classify_publication interview_item = .ok Option.none ∧
    (∀ rest, build_entries (interview_item :: rest) "2024" = build_entries rest "2024") ∧
    (∃ joined pre suf,
      alistGet ((build_auto_manual_fields [interview_item] "2024").toOption.getD [])
        "formidling_media" = some joined ∧
      joined = pre ++ "Intervju (2024)." ++ suf) :=
  mediainterview_excluded_and_reported [interview_item] "2024" interview_item
    ((build_auto_manual_fields [interview_item] "2024").toOption.getD [])
    "Intervju (2024)." (List.mem_singleton.mpr rfl) rfl rfl rfl rfl
